import Mathlib

/-!
Verification of the nutrient correction and aggregation pipeline of the
FCT–TKPI application (`src/app.py`).

The pipeline is shallowly embedded: pandas DataFrames become lists of rows,
numeric cells become `ℚ` (the source's `float` arithmetic is modelled with
exact rationals), and the float `NaN` missing-value sentinel becomes
`Option ℚ` with `none` standing for NaN.  Python's `str.upper()`,
`str.lower()` and `str.strip()` are embedded as structural functions over
the character list of a `String` (the data in play is ASCII).
-/

namespace FCT

/-- Embedding of Python `str.upper()` (ASCII). -/
def upperS (s : String) : String := ⟨s.data.map Char.toUpper⟩

/-- Embedding of Python `str.lower()` (ASCII). -/
def lowerS (s : String) : String := ⟨s.data.map Char.toLower⟩

/-- Embedding of Python `str.strip()`: drop whitespace on both ends. -/
def trimS (s : String) : String :=
  ⟨(((s.data.dropWhile Char.isWhitespace).reverse).dropWhile Char.isWhitespace).reverse⟩

/-- `norm` from app.py: `str(s).strip().upper()`. -/
def norm (s : String) : String := upperS (trimS s)

/-- `grams_from` from app.py: unit is lowercased and stripped; the gram
spellings return the value unchanged, the kilogram spellings multiply by
1000, and any other unit falls through to the value unchanged. -/
def grams_from (value : ℚ) (unit : String) : ℚ :=
  let u := trimS (lowerS unit)
  if u = "g" ∨ u = "gram" ∨ u = "grams" then value
  else if u = "kg" ∨ u = "kilogram" ∨ u = "kilograms" then value * 1000
  else value

/-- One row of the yield-factor table (`Metode`, `Yield`). -/
structure YieldRow where
  metode : String
  yld : ℚ
deriving DecidableEq

/-- One row of the retention-factor table (`Metode`, `Nutrien`, `Retensi`). -/
structure RetRow where
  metode : String
  nutrien : String
  retensi : ℚ
deriving DecidableEq

/-- `get_yield` from app.py: first row whose upper-cased `Metode` equals
`norm method`, else 1.0; 1.0 for the empty table. -/
def get_yield (ydf : List YieldRow) (method : String) : ℚ :=
  if ydf.isEmpty then 1 else
    match ydf.filter (fun r => upperS r.metode == norm method) with
    | r :: _ => r.yld
    | [] => 1

/-- `get_retention` from app.py: first row matching `(method, nutrient)`,
else first row matching `(method, "ALL")`, else 1.0.  The `Metode` and
`Nutrien` table columns are upper-cased for the comparison; the nutrient
argument is passed already upper-cased by the caller (`norm key`). -/
def get_retention (rdf : List RetRow) (method : String) (nk : String) : ℚ :=
  if rdf.isEmpty then 1 else
    match rdf.filter (fun r => upperS r.metode == norm method && upperS r.nutrien == nk) with
    | r :: _ => r.retensi
    | [] =>
      match rdf.filter (fun r => upperS r.metode == norm method && upperS r.nutrien == "ALL") with
      | r :: _ => r.retensi
      | [] => 1

/-- `default_yield_table` from app.py. -/
def default_yield_table : List YieldRow :=
  [⟨"segar", 1.0⟩, ⟨"direbus", 1.0⟩, ⟨"tumis", 0.90⟩, ⟨"digoreng", 0.85⟩, ⟨"panggang", 0.85⟩]

/-- `default_retention_table` from app.py. -/
def default_retention_table : List RetRow :=
  [⟨"segar", "ALL", 1.0⟩,
   ⟨"direbus", "PROTEIN", 0.98⟩, ⟨"direbus", "SERAT", 0.95⟩, ⟨"direbus", "VIT_C", 0.60⟩,
   ⟨"direbus", "VIT A RE", 0.90⟩, ⟨"direbus", "VIT RAE", 0.90⟩, ⟨"direbus", "KALIUM", 0.90⟩,
   ⟨"direbus", "KALSIUM", 0.98⟩, ⟨"direbus", "BESI", 0.98⟩, ⟨"direbus", "SENG", 0.98⟩,
   ⟨"tumis", "PROTEIN", 0.97⟩, ⟨"tumis", "SERAT", 0.95⟩, ⟨"tumis", "VIT_C", 0.70⟩,
   ⟨"tumis", "VIT A RE", 0.90⟩, ⟨"tumis", "VIT RAE", 0.90⟩, ⟨"tumis", "KALIUM", 0.95⟩,
   ⟨"digoreng", "PROTEIN", 0.95⟩, ⟨"digoreng", "SERAT", 0.90⟩, ⟨"digoreng", "VIT_C", 0.65⟩,
   ⟨"digoreng", "VIT A RE", 0.85⟩, ⟨"digoreng", "VIT RAE", 0.85⟩,
   ⟨"panggang", "PROTEIN", 0.97⟩, ⟨"panggang", "SERAT", 0.95⟩, ⟨"panggang", "VIT_C", 0.70⟩,
   ⟨"panggang", "VIT A RE", 0.88⟩, ⟨"panggang", "VIT RAE", 0.88⟩]

/-- Case-insensitive equality of strings, the matching notion used by the
spec for factor-table lookups. -/
def ciEq (a b : String) : Prop := upperS a = upperS b

instance ciEqDec (a b : String) : Decidable (ciEq a b) :=
  inferInstanceAs (Decidable (upperS a = upperS b))

/-- One ingredient row of the TKPI reference table: column name to parsed
numeric cell (`none` models a cell that `pd.to_numeric(..., errors="coerce")`
turns into NaN, or an absent column). -/
structure TkpiRow where
  cols : List (String × Option ℚ)
deriving DecidableEq

/-- First-match lookup in an association list of optional numeric cells. -/
def lookupQ (l : List (String × Option ℚ)) (c : String) : Option ℚ :=
  match l.find? (fun p => p.1 == c) with
  | some p => p.2
  | none => none

/-- `tkpi_value` from app.py: the per-100g value of a column in an
ingredient row; NaN (`none`) when the column is absent or non-numeric. -/
def tkpi_value (row : TkpiRow) (col : String) : Option ℚ := lookupQ row.cols col

/-- A user-entered menu row (`st.session_state.rows` entry). -/
structure MenuEntry where
  namaMenu : String
  bahan : String
  beratInput : ℚ
  unit : String
  metode : String
deriving DecidableEq

/-- One corrected per-ingredient output row of the calculation loop. -/
structure CorrectedRow where
  namaMenu : String
  bahan : String
  metode : String
  beratInputG : ℚ
  bddPct : ℚ
  beratEdible : ℚ
  yld : ℚ
  beratAkhir : ℚ
  nutrients : List (String × Option ℚ)
deriving DecidableEq

/-- `tkpi_idx.loc[bahan]`: resolve an ingredient name in the reference
table (first match), `none` when the ingredient is missing. -/
def tkpiFind (tkpi : List (String × TkpiRow)) (bahan : String) : Option TkpiRow :=
  (tkpi.find? (fun p => p.1 == bahan)).map (fun p => p.2)

/-- The body of the per-ingredient correction loop in app.py (lines
540-561): BDD default 100 when absent/NaN, edible weight, yield, final
weight, and one corrected value per available nutrient (NaN propagates). -/
def mkCorrected (ydf : List YieldRow) (rdf : List RetRow) (avail : List (String × String))
    (bddPresent : Bool) (bddCol : String) (e : MenuEntry) (tk : TkpiRow) : CorrectedRow :=
  let w_in := grams_from e.beratInput e.unit
  let bdd_val := if bddPresent then (tkpi_value tk bddCol).getD 100 else 100
  let w_edible := w_in * (bdd_val / 100)
  let y := get_yield ydf e.metode
  let w_final := w_edible * y
  ⟨e.namaMenu, e.bahan, e.metode, w_in, bdd_val, w_edible, y, w_final,
    avail.map (fun kc =>
      match tkpi_value tk kc.2 with
      | none => (kc.1, none)
      | some per100 =>
        (kc.1, some (per100 / 100 * w_final * get_retention rdf e.metode (norm kc.1))))⟩

/-- One iteration of the correction loop: entries whose ingredient is not
in the reference table are skipped (warned about), the rest produce a
corrected row. -/
def calc_row (ydf : List YieldRow) (rdf : List RetRow) (avail : List (String × String))
    (bddPresent : Bool) (bddCol : String) (tkpi : List (String × TkpiRow))
    (e : MenuEntry) : Option CorrectedRow :=
  match tkpiFind tkpi e.bahan with
  | none => none
  | some tk => some (mkCorrected ydf rdf avail bddPresent bddCol e tk)

/-- Scenario A ingredient: per-100g protein 20, BDD 90%. -/
def c1Tk : TkpiRow := ⟨[("BDD", some 90), ("PROTEIN", some 20)]⟩

/-- Scenario A reference table. -/
def c1Tkpi : List (String × TkpiRow) := [("bahan_a", c1Tk)]

/-- Scenario A menu entry: 200 g, method `direbus`. -/
def c1Entry : MenuEntry := ⟨"menu_a", "bahan_a", 200, "g", "direbus"⟩

/-- Scenario A corrected row as computed by the correction loop. -/
def c1Row : CorrectedRow :=
  mkCorrected default_yield_table default_retention_table [("PROTEIN", "PROTEIN")]
    true "BDD" c1Entry c1Tk

/-- One row of the `AKG_GROUPS` adequacy reference table. -/
structure AkgRow where
  kelompok : String
  jk : String
  energi : ℚ
  protein : ℚ
  lemak_total : ℚ
  omega3 : ℚ
  omega6 : ℚ
  karbohidrat : ℚ
  serat : ℚ
  air : ℚ
deriving DecidableEq

/-- `AKG_COLS` from app.py: the eight fixed reference nutrient keys. -/
def AKG_COLS : List String :=
  ["Energi", "Protein", "Lemak_total", "Omega3", "Omega6", "Karbohidrat", "Serat", "Air"]

/-- Numeric value of a column of an `AkgRow`.  The eight `AKG_COLS` columns
hold numbers; for every other key (the string columns `Kelompok` and `JK`,
or a missing key) the source's `float(...)` conversion inside `_safe_get`
fails and yields NaN, modelled as `none`. -/
def AkgRow.val (r : AkgRow) (c : String) : Option ℚ :=
  if c = "Energi" then some r.energi
  else if c = "Protein" then some r.protein
  else if c = "Lemak_total" then some r.lemak_total
  else if c = "Omega3" then some r.omega3
  else if c = "Omega6" then some r.omega6
  else if c = "Karbohidrat" then some r.karbohidrat
  else if c = "Serat" then some r.serat
  else if c = "Air" then some r.air
  else none

/-- `AKG_GROUPS` from app.py: the seven demographic reference groups. -/
def akgGroups : List AkgRow :=
  [⟨"Anak 7–9 th", "NA", 1650, 40, 55, 0.9, 10, 250, 23, 1650⟩,
   ⟨"Laki-laki 10–12 th", "L", 2000, 50, 65, 1.2, 12, 300, 28, 1850⟩,
   ⟨"Laki-laki 13–15 th", "L", 2400, 70, 80, 1.6, 16, 350, 34, 2100⟩,
   ⟨"Laki-laki 16–18 th", "L", 2650, 75, 85, 1.6, 16, 400, 37, 2300⟩,
   ⟨"Perempuan 10–12 th", "P", 1900, 55, 65, 1.0, 10, 280, 27, 1850⟩,
   ⟨"Perempuan 13–15 th", "P", 2050, 65, 70, 1.1, 11, 300, 29, 2100⟩,
   ⟨"Perempuan 16–18 th", "P", 2100, 65, 70, 1.1, 11, 300, 29, 2150⟩]

/-- The value computed by `adequacy_pct` for one reference nutrient key:
NaN (`none`) when the intake value is NaN/absent or the target is zero,
otherwise `intake/target*100`.  The target of an `AKG_COLS` key is always
present in an `AkgRow` (the `none` target branch is unreachable for the
keys the function iterates over). -/
def adequacy_cell (intake : List (String × Option ℚ)) (r : AkgRow) (c : String) : Option ℚ :=
  match r.val c, lookupQ intake c with
  | some tgt, some v => if tgt = 0 then none else some (v / tgt * 100)
  | some _, none => none
  | none, _ => none

/-- `adequacy_pct` from app.py: one output cell per `AKG_COLS` key. -/
def adequacy_pct (intake : List (String × Option ℚ)) (r : AkgRow) : List (String × Option ℚ) :=
  AKG_COLS.map (fun c => (c, adequacy_cell intake r c))

/-- One row of the gap table built by `compute_gap_series`. -/
structure GapRow where
  nutrien : String
  target : Option ℚ
  asupan : Option ℚ
  pencapaian : Option ℚ
  gap : Option ℚ
deriving DecidableEq

/-- The column index of an `AKG_GROUPS` row (`akg_row.index`). -/
def akgIndex : List String :=
  ["Kelompok", "JK", "Energi", "Protein", "Lemak_total", "Omega3", "Omega6",
   "Karbohidrat", "Serat", "Air"]

/-- The gap row built for one nutrient key: `_safe_get` on the reference
row and the intake dict; NaN target or zero target makes percentage and
gap NaN, a NaN intake value propagates NaN into both as well. -/
def gapRowFor (asupan : List (String × ℚ)) (r : AkgRow) (k : String) : GapRow :=
  match r.val k, (asupan.find? (fun p => p.1 == k)).map (fun p => p.2) with
  | some t, some v =>
    if t = 0 then ⟨k, some t, some v, none, none⟩
    else ⟨k, some t, some v, some (v / t * 100), some (v - t)⟩
  | tgt, val => ⟨k, tgt, val, none, none⟩

/-- `compute_gap_series` from app.py: one gap row per reference-row column
that is not the group label and appears in the intake dict. -/
def compute_gap_series (asupan : List (String × ℚ)) (r : AkgRow) : List GapRow :=
  (akgIndex.filter (fun k =>
    !(lowerS k == "kelompok") && (asupan.find? (fun p => p.1 == k)).isSome)).map
    (gapRowFor asupan r)

/-- `def_status` from `narrate_gap`: Defisit below 90, Memadai from 90 to
120 inclusive, Surplus above 120, NA for an undefined percentage. -/
def def_status (p : Option ℚ) : String :=
  match p with
  | none => "NA"
  | some q => if q < 90 then "Defisit" else if q ≤ 120 then "Memadai" else "Surplus"

/-- Status column added to the gap table by `narrate_gap`. -/
def statusOf (g : GapRow) : String := def_status g.pencapaian

/-- The `dev` sort key of `_pick`: absolute deviation of the percentage
from 100 (only applied to bucket rows, whose percentage is defined; the
`getD 0` branch is unreachable there). -/
def dev (g : GapRow) : ℚ := |g.pencapaian.getD 0 - 100|

/-- `preferred_order` from `narrate_gap`. -/
def preferred_order : List String :=
  ["Energi", "Protein", "Lemak_total", "Omega3", "Omega6", "Karbohidrat", "Serat", "Air"]

/-- `_ord` column: position in `preferred_order`, 999 for other keys. -/
def ordIdx (s : String) : ℕ := (preferred_order.findIdx? (fun x => x == s)).getD 999

/-- The `sort_values(["_ord","Nutrien"])` ordering of `narrate_gap`. -/
def prefLe (a b : GapRow) : Prop :=
  ordIdx a.nutrien < ordIdx b.nutrien ∨
    (ordIdx a.nutrien = ordIdx b.nutrien ∧ a.nutrien ≤ b.nutrien)

instance prefLeDec (a b : GapRow) : Decidable (prefLe a b) := by
  unfold prefLe
  infer_instance

/-- The `sort_values("dev", ascending=False)` ordering of `_pick`:
descending absolute deviation from 100. -/
def devDescLe (a b : GapRow) : Prop := dev b ≤ dev a

instance devDescLeDec (a b : GapRow) : Decidable (devDescLe a b) := by
  unfold devDescLe
  infer_instance

/-- `df.sort_values(["_ord","Nutrien"])` (tie order unspecified by pandas
for equal keys; any sort for the ordering is a faithful model). -/
def sortPreferred (l : List GapRow) : List GapRow := List.insertionSort prefLe l

/-- `d.sort_values("dev", ascending=False)` in `_pick`. -/
def sortByDevDesc (l : List GapRow) : List GapRow := List.insertionSort devDescLe l

/-- `_pick` from `narrate_gap`: rows of one status bucket, sorted by
descending deviation from 100%. -/
def pick (rows : List GapRow) (s : String) : List GapRow :=
  sortByDevDesc ((sortPreferred rows).filter (fun g => statusOf g == s))

/-- The nutrients mentioned in the narrative for one bucket:
`head(min(5, len))` of the picked bucket. -/
def bucketMentions (rows : List GapRow) (s : String) : List GapRow := (pick rows s).take 5

/-- C4 witness reference row (first AKG group). -/
def c4Akg : AkgRow := ⟨"Anak 7–9 th", "NA", 1650, 40, 55, 0.9, 10, 250, 23, 1650⟩

/-- C7 witness intake dict (Energi only). -/
def c7In : List (String × ℚ) := [("Energi", 1800)]

/-- C7 witness reference row (first AKG group). -/
def c7Akg : AkgRow := ⟨"Anak 7–9 th", "NA", 1650, 40, 55, 0.9, 10, 250, 23, 1650⟩

/-- C7 witness gap row. -/
def c7Row : GapRow := gapRowFor c7In c7Akg "Energi"

/-- C9 witness gap table: Scenario D (fiber 20 against target 28). -/
def c9Rows : List GapRow :=
  [⟨"Serat", some 28, some 20, some (500 / 7), some (-8)⟩]

/-- C9 witness gap row. -/
def c9Gap : GapRow := ⟨"Serat", some 28, some 20, some (500 / 7), some (-8)⟩

/-- Value of one nutrient column in a corrected row (`none` = NaN). -/
def nutrientVal (r : CorrectedRow) (k : String) : Option ℚ := lookupQ r.nutrients k

/-- `df_per_bahan.groupby("Nama Menu")[k].sum()` for one menu and one
nutrient column: the missing-value-tolerant numeric sum (NaN cells are
skipped; a menu whose cells are all NaN totals 0). -/
def menuTotal (rows : List CorrectedRow) (m : String) (k : String) : ℚ :=
  ((rows.filter (fun r => r.namaMenu == m)).filterMap (fun r => nutrientVal r k)).sum

/-- The direct NaN-skipping sum of one nutrient over all corrected rows
whose menu lies in a set of menus. -/
def directSum (rows : List CorrectedRow) (S : List String) (k : String) : ℚ :=
  ((rows.filter (fun r => decide (r.namaMenu ∈ S))).filterMap (fun r => nutrientVal r k)).sum

/-- The distinct menu names appearing in the corrected rows (groupby keys;
pandas sorts them, but no claim depends on their order). -/
def menuNames (rows : List CorrectedRow) : List String :=
  (rows.map (fun r => r.namaMenu)).dedup

/-- `df_per_menu`: one row per distinct menu with each nutrient column
summed over that menu's corrected rows. -/
def df_per_menu (rows : List CorrectedRow) (nutrCols : List String) :
    List (String × List (String × ℚ)) :=
  (menuNames rows).map (fun m => (m, nutrCols.map (fun k => (k, menuTotal rows m k))))

/-- C6 witness corrected rows: menu `A` has energy 150 and 220 (Scenario
B), menu `B` has energy 999. -/
def c6Rows : List CorrectedRow :=
  [⟨"A", "x", "segar", 100, 100, 100, 1, 100, [("ENERGI", some 150)]⟩,
   ⟨"A", "y", "segar", 100, 100, 100, 1, 100, [("ENERGI", some 220)]⟩,
   ⟨"B", "z", "segar", 100, 100, 100, 1, 100, [("ENERGI", some 999)]⟩]

/-- The manual-entry intake defaults (`asupan` dict initialisation). -/
def asupanDefault : List (String × ℚ) :=
  [("Energi", 2000), ("Protein", 65), ("Lemak_total", 70), ("Omega3", 1.2),
   ("Omega6", 12), ("Karbohidrat", 300), ("Serat", 28), ("Air", 1800)]

/-- The alias lists of the intake derivation (after the `+=` lines that
append a duplicate of the first alias for five of the keys). -/
def aliases (k : String) : List String :=
  if k = "Energi" then
    ["energi", "energi (kkal)", "energy", "kcal", "energi_total", "energi total",
     "energi (kcal)", "energi"]
  else if k = "Protein" then
    ["protein", "protein (g)", "protein_total", "protein total", "protein"]
  else if k = "Lemak_total" then
    ["lemak_total", "lemak", "lemak (g)", "fat", "total fat", "lemak"]
  else if k = "Omega3" then ["omega3", "omega 3", "n-3", "omega-3"]
  else if k = "Omega6" then ["omega6", "omega 6", "n-6", "omega-6"]
  else if k = "Karbohidrat" then
    ["karbohidrat", "kh", "karbohidrat (g)", "carb", "carbohydrate", "kh"]
  else if k = "Serat" then ["serat", "serat (g)", "fiber", "dietary fiber", "fibre"]
  else if k = "Air" then ["air", "air (ml)", "air (g)", "water", "water (ml)", "water (g)", "air"]
  else []

/-- `lower_map.get(a.lower())`: the per-menu table's columns keyed by
lowercase name.  The dict comprehension keeps the LAST column with a given
lowercase name, hence the search over the reversed column list.  A column
is a name together with its cells (`none` = non-numeric, coerced to NaN). -/
def lower_map_get (cols : List (String × List (Option ℚ))) (a : String) :
    Option (String × List (Option ℚ)) :=
  cols.reverse.find? (fun c => lowerS c.1 == lowerS a)

/-- `sum_by_alias` from app.py: first alias whose lowercase form names a
column wins and returns that column's NaN-skipping sum (0 when no cell is
numeric); NaN when no alias matches.  Python's truthiness test `if col:`
makes a column named `""` fall through like a non-match. -/
def sum_by_alias (cols : List (String × List (Option ℚ))) : List String → Option ℚ
  | [] => none
  | a :: rest =>
    match lower_map_get cols a with
    | some c => if c.1 = "" then sum_by_alias cols rest else some ((c.2.filterMap id).sum)
    | none => sum_by_alias cols rest

/-- Python dict read `d.get(k)` on the intake dict. -/
def dictGet (l : List (String × ℚ)) (k : String) : Option ℚ :=
  (l.find? (fun p => p.1 == k)).map (fun p => p.2)

/-- Python dict write `d[k] = v`: replace the value when the key exists,
append otherwise. -/
def dictSet : List (String × ℚ) → String → ℚ → List (String × ℚ)
  | [], k, v => [(k, v)]
  | p :: t, k, v => if p.1 == k then (p.1, v) :: t else p :: dictSet t k v

/-- One iteration of the intake fill loop: a non-NaN alias sum overwrites
the default and sets `filled_any`. -/
def deriveStep (cols : List (String × List (Option ℚ))) (acc : List (String × ℚ) × Bool)
    (k : String) : List (String × ℚ) × Bool :=
  match sum_by_alias cols (aliases k) with
  | some tot => (dictSet acc.1 k tot, true)
  | none => acc

/-- One iteration of the zero-fill loop: `if k not in asupan or (isinstance
(asupan[k], float) and math.isnan(asupan[k])): asupan[k] = 0.0`.  The
values stored in the dict are never NaN (the defaults are numeric literals
and assigned totals are non-NaN by the `pd.isna` guard), so the NaN part
of the condition is modelled as always false. -/
def zeroFillStep (a : List (String × ℚ)) (k : String) : List (String × ℚ) :=
  if a.any (fun p => p.1 == k) then a else dictSet a k 0

/-- The intake derivation from the per-menu table: start from the manual
defaults, overwrite each reference key whose alias sum is defined, then
run the zero-fill loop when any key was filled. -/
def deriveAsupan (cols : List (String × List (Option ℚ))) : List (String × ℚ) :=
  if (AKG_COLS.foldl (deriveStep cols) (asupanDefault, false)).2 then
    AKG_COLS.foldl zeroFillStep (AKG_COLS.foldl (deriveStep cols) (asupanDefault, false)).1
  else (AKG_COLS.foldl (deriveStep cols) (asupanDefault, false)).1

/-- C3 failing input: a per-menu table with an `Energi` column only. -/
def c3Cols : List (String × List (Option ℚ)) := [("Energi", [some 100])]

/-- C10 witness: a per-menu table whose `Serat` column holds a single
non-numeric (coerced-to-NaN) cell. -/
def c10Cols : List (String × List (Option ℚ)) := [("Serat", [none])]

/-! ## Theorems -/

/-- C8 counterexample: the unit string `"kg"` is not `"kilograms"`, yet
`grams_from` multiplies by 1000 instead of returning the value unchanged. -/
theorem grams_from_kg_counterexample :
    grams_from 1 "kg" = 1000 ∧ ¬ ("kg" = "kilograms") ∧ (1000 : ℚ) ≠ 1 := by
  refine ⟨?_, by decide, by norm_num⟩
  show (if ("kg" : String) = "g" ∨ ("kg" : String) = "gram" ∨ ("kg" : String) = "grams" then (1 : ℚ)
    else if ("kg" : String) = "kg" ∨ ("kg" : String) = "kilogram" ∨ ("kg" : String) = "kilograms"
      then (1 : ℚ) * 1000 else 1) = 1000
  rw [if_neg (by decide), if_pos (Or.inl rfl)]
  norm_num

/-- C8 (amended): weight normalization multiplies by 1000 exactly when the
lowercased, stripped unit is one of `"kg"`, `"kilogram"`, `"kilograms"`;
every other unit string (including unrecognized ones) returns the value
unchanged, and no input is rejected. -/
theorem grams_from_spec (v : ℚ) (u : String) :
    grams_from v u =
      if trimS (lowerS u) = "kg" ∨ trimS (lowerS u) = "kilogram" ∨ trimS (lowerS u) = "kilograms"
      then v * 1000 else v := by
  unfold grams_from
  by_cases hg : trimS (lowerS u) = "g" ∨ trimS (lowerS u) = "gram" ∨ trimS (lowerS u) = "grams"
  · rw [if_pos hg]
    have hk : ¬ (trimS (lowerS u) = "kg" ∨ trimS (lowerS u) = "kilogram" ∨
        trimS (lowerS u) = "kilograms") := by
      rcases hg with h | h | h <;> rw [h] <;> decide
    rw [if_neg hk]
  · rw [if_neg hg]

/-- Heads of filtered lists: either nothing in `l` satisfies `p`, or the
filter starts with some member of `l` satisfying `p`. -/
theorem filter_head_cases {α : Type} (p : α → Bool) (l : List α) :
    (l.filter p = [] ∧ ∀ a ∈ l, ¬ p a = true) ∨
    ∃ h t, l.filter p = h :: t ∧ h ∈ l ∧ p h = true := by
  cases hf : l.filter p with
  | nil =>
    left
    exact ⟨rfl, by simpa using (List.filter_eq_nil_iff.mp hf)⟩
  | cons h t =>
    right
    have hmem : h ∈ l.filter p := by rw [hf]; exact List.mem_cons_self h t
    exact ⟨h, t, rfl, (List.mem_filter.mp hmem).1, (List.mem_filter.mp hmem).2⟩

/-- C2: for every retention table, method and nutrient key (given without
surrounding whitespace, as all nutrient keys and methods are), the factor
used by the pipeline (`get_retention rdf m (norm k)`) is resolved as:
a case-insensitive `(method, nutrient)` entry when one exists, otherwise a
case-insensitive `(method, "ALL")` entry when one exists, otherwise 1
(in particular 1 for the empty table). -/
theorem retention_lookup_order (rdf : List RetRow) (m k : String)
    (hm : trimS m = m) (hk : trimS k = k) :
    ((∃ r ∈ rdf, ciEq r.metode m ∧ ciEq r.nutrien k) →
      ∃ r ∈ rdf, ciEq r.metode m ∧ ciEq r.nutrien k ∧
        get_retention rdf m (norm k) = r.retensi) ∧
    ((∀ r ∈ rdf, ¬ (ciEq r.metode m ∧ ciEq r.nutrien k)) →
      (∃ r ∈ rdf, ciEq r.metode m ∧ upperS r.nutrien = "ALL") →
      ∃ r ∈ rdf, ciEq r.metode m ∧ upperS r.nutrien = "ALL" ∧
        get_retention rdf m (norm k) = r.retensi) ∧
    ((∀ r ∈ rdf, ¬ (ciEq r.metode m ∧ ciEq r.nutrien k)) →
      (∀ r ∈ rdf, ¬ (ciEq r.metode m ∧ upperS r.nutrien = "ALL")) →
      get_retention rdf m (norm k) = 1) := by
  have hnm : norm m = upperS m := by rw [norm, hm]
  have hnk : norm k = upperS k := by rw [norm, hk]
  have hp1 : ∀ r : RetRow,
      ((upperS r.metode == norm m && upperS r.nutrien == norm k) = true) ↔
      (ciEq r.metode m ∧ ciEq r.nutrien k) := by
    intro r
    rw [hnm, hnk]
    simp [ciEq, Bool.and_eq_true, beq_iff_eq]
  have hp2 : ∀ r : RetRow,
      ((upperS r.metode == norm m && upperS r.nutrien == "ALL") = true) ↔
      (ciEq r.metode m ∧ upperS r.nutrien = "ALL") := by
    intro r
    rw [hnm]
    simp [ciEq, Bool.and_eq_true, beq_iff_eq]
  have hne : rdf ≠ [] → rdf.isEmpty = false := by
    intro h; cases rdf with
    | nil => exact absurd rfl h
    | cons a l => rfl
  rcases filter_head_cases (fun r => upperS r.metode == norm m && upperS r.nutrien == norm k) rdf
    with ⟨hf1, hno1⟩ | ⟨r1, t1, hf1, hr1mem, hr1p⟩
  · rcases filter_head_cases (fun r => upperS r.metode == norm m && upperS r.nutrien == "ALL") rdf
      with ⟨hf2, hno2⟩ | ⟨r2, t2, hf2, hr2mem, hr2p⟩
    · -- neither a specific nor a wildcard match: result 1
      have hres : get_retention rdf m (norm k) = 1 := by
        unfold get_retention
        cases rdf with
        | nil => rfl
        | cons a l => rw [if_neg (by simp), hf1, hf2]
      refine ⟨?_, ?_, fun _ _ => hres⟩
      · rintro ⟨r, hr, hc⟩
        exact absurd ((hp1 r).mpr hc) (hno1 r hr)
      · rintro _ ⟨r, hr, hc⟩
        exact absurd ((hp2 r).mpr hc) (hno2 r hr)
    · -- wildcard match only
      have hres : get_retention rdf m (norm k) = r2.retensi := by
        have hE : ¬ (rdf.isEmpty = true) := by
          rw [hne (by rintro rfl; simp at hf2)]; simp
        unfold get_retention
        rw [if_neg hE, hf1, hf2]
      refine ⟨?_, fun _ _ => ⟨r2, hr2mem, ((hp2 r2).mp hr2p).1, ((hp2 r2).mp hr2p).2, hres⟩, ?_⟩
      · rintro ⟨r, hr, hc⟩
        exact absurd ((hp1 r).mpr hc) (hno1 r hr)
      · intro _ hno
        exact absurd ((hp2 r2).mp hr2p) (hno r2 hr2mem)
  · -- specific match
    have hres : get_retention rdf m (norm k) = r1.retensi := by
      have hE : ¬ (rdf.isEmpty = true) := by
        rw [hne (by rintro rfl; simp at hf1)]; simp
      unfold get_retention
      rw [if_neg hE, hf1]
    refine ⟨fun _ => ⟨r1, hr1mem, ((hp1 r1).mp hr1p).1, ((hp1 r1).mp hr1p).2, hres⟩, ?_, ?_⟩
    · intro hno _
      exact absurd ((hp1 r1).mp hr1p) (hno r1 hr1mem)
    · intro hno _
      exact absurd ((hp1 r1).mp hr1p) (hno r1 hr1mem)

/-- C2 witness: with the default retention table, `direbus`/`PROTEIN`
resolves to the specific entry 0.98, `segar`/`PROTEIN` falls back to the
`ALL` wildcard 1.0, and an unknown method resolves to the default 1. -/
theorem retention_lookup_order_witness :
    get_retention default_retention_table "direbus" (norm "PROTEIN") = 0.98 ∧
    get_retention default_retention_table "segar" (norm "PROTEIN") = 1.0 ∧
    get_retention default_retention_table "microwave" (norm "PROTEIN") = 1 := by
  refine ⟨rfl, rfl, ?_⟩
  exact (retention_lookup_order default_retention_table "microwave" "PROTEIN"
    (by decide) (by decide)).2.2 (by decide) (by decide)

/-- C1: for every menu entry whose ingredient resolves in the reference
table, the produced corrected row satisfies
`edible_weight = input_weight_g * (edible_pct/100)`,
`final_weight = edible_weight * yield(method)`, and for every available
nutrient key with a numeric per-100g value,
`corrected[nutrient] = (per100[nutrient]/100) * final_weight *
retention(method, nutrient)`. -/
theorem correction_formulas (ydf : List YieldRow) (rdf : List RetRow)
    (avail : List (String × String)) (bddPresent : Bool) (bddCol : String)
    (tkpi : List (String × TkpiRow)) (e : MenuEntry) (tk : TkpiRow)
    (htk : tkpiFind tkpi e.bahan = some tk) (row : CorrectedRow)
    (hrow : calc_row ydf rdf avail bddPresent bddCol tkpi e = some row) :
    row.beratInputG = grams_from e.beratInput e.unit ∧
    row.beratEdible = row.beratInputG * (row.bddPct / 100) ∧
    row.yld = get_yield ydf e.metode ∧
    row.beratAkhir = row.beratEdible * row.yld ∧
    ∀ kc ∈ avail, ∀ v, tkpi_value tk kc.2 = some v →
      (kc.1, some (v / 100 * row.beratAkhir * get_retention rdf e.metode (norm kc.1)))
        ∈ row.nutrients := by
  unfold calc_row at hrow
  rw [htk] at hrow
  have hrow2 : some (mkCorrected ydf rdf avail bddPresent bddCol e tk) = some row := hrow
  injection hrow2 with h
  subst h
  refine ⟨rfl, rfl, rfl, rfl, ?_⟩
  intro kc hkc v hv
  refine List.mem_map.mpr ⟨kc, hkc, ?_⟩
  show (match tkpi_value tk kc.2 with
    | none => (kc.1, none)
    | some per100 =>
      (kc.1, some (per100 / 100 *
        (grams_from e.beratInput e.unit *
          ((if bddPresent then (tkpi_value tk bddCol).getD 100 else 100) / 100) *
          get_yield ydf e.metode) *
        get_retention rdf e.metode (norm kc.1)))) = _
  rw [hv]
  rfl

/-- C1 witness (Scenario A): protein 20 per 100 g, BDD 90%, 200 g input,
method `direbus` with the default tables gives edible weight 180 g, final
weight 180 g and corrected protein 35.28. -/
theorem correction_formulas_witness :
    calc_row default_yield_table default_retention_table [("PROTEIN", "PROTEIN")]
        true "BDD" c1Tkpi c1Entry = some c1Row ∧
    c1Row.beratEdible = c1Row.beratInputG * (c1Row.bddPct / 100) ∧
    c1Row.beratAkhir = c1Row.beratEdible * c1Row.yld ∧
    c1Row.beratEdible = 180 ∧
    c1Row.beratAkhir = 180 ∧
    ("PROTEIN", some ((20 : ℚ) / 100 * c1Row.beratAkhir *
      get_retention default_retention_table "direbus" (norm "PROTEIN"))) ∈ c1Row.nutrients ∧
    (20 : ℚ) / 100 * c1Row.beratAkhir *
      get_retention default_retention_table "direbus" (norm "PROTEIN") = 35.28 := by
  have h := correction_formulas default_yield_table default_retention_table
    [("PROTEIN", "PROTEIN")] true "BDD" c1Tkpi c1Entry c1Tk rfl c1Row rfl
  refine ⟨rfl, h.2.1, h.2.2.2.1, ?_, ?_, ?_, ?_⟩
  · show (200 : ℚ) * (90 / 100) = 180
    norm_num
  · show (200 : ℚ) * (90 / 100) * 1.0 = 180
    norm_num
  · exact h.2.2.2.2 ("PROTEIN", "PROTEIN") (List.mem_singleton.mpr rfl) 20 rfl
  · show (20 : ℚ) / 100 * ((200 : ℚ) * (90 / 100) * 1.0) * 0.98 = 35.28
    norm_num

/-- C4: for every intake vector and reference group row, the adequacy
percentage of an `AKG_COLS` key is a value (never an exception), is
undefined (NaN) exactly when the group's target is zero or the intake
value is undefined, and equals `intake/target*100` otherwise. -/
theorem adequacy_pct_spec (intake : List (String × Option ℚ)) (r : AkgRow) (c : String)
    (hc : c ∈ AKG_COLS) (tgt : ℚ) (htgt : r.val c = some tgt) :
    (c, adequacy_cell intake r c) ∈ adequacy_pct intake r ∧
    (adequacy_cell intake r c = none ↔ (tgt = 0 ∨ lookupQ intake c = none)) ∧
    (∀ v, lookupQ intake c = some v → tgt ≠ 0 →
      adequacy_cell intake r c = some (v / tgt * 100)) := by
  refine ⟨List.mem_map.mpr ⟨c, hc, rfl⟩, ?_, ?_⟩
  · unfold adequacy_cell
    rw [htgt]
    cases hv : lookupQ intake c with
    | none => simp
    | some v =>
      by_cases h0 : tgt = 0
      · simp [h0]
      · simp [h0]
  · intro v hv h0
    unfold adequacy_cell
    rw [htgt, hv]
    show (if tgt = 0 then none else some (v / tgt * 100)) = some (v / tgt * 100)
    rw [if_neg h0]

/-- C4 witness: intake energy 1800 against the first reference group
(target 1650) produces the defined percentage 1800/1650*100. -/
theorem adequacy_pct_spec_witness :
    ("Energi", adequacy_cell [("Energi", some 1800)] c4Akg "Energi")
      ∈ adequacy_pct [("Energi", some 1800)] c4Akg ∧
    adequacy_cell [("Energi", some 1800)] c4Akg "Energi" = some ((1800 : ℚ) / 1650 * 100) := by
  have h := adequacy_pct_spec [("Energi", some 1800)] c4Akg "Energi" (by decide) 1650 rfl
  exact ⟨h.1, h.2.2 1800 rfl (by norm_num)⟩

/-- Helper: the status of a defined percentage is `Defisit` iff it is
below 90. -/
theorem def_status_deficit_iff (q : ℚ) : def_status (some q) = "Defisit" ↔ q < 90 := by
  show (if q < 90 then "Defisit" else if q ≤ 120 then "Memadai" else "Surplus") = "Defisit" ↔
    q < 90
  by_cases h1 : q < 90
  · rw [if_pos h1]
    exact ⟨fun _ => h1, fun _ => rfl⟩
  · rw [if_neg h1]
    by_cases h2 : q ≤ 120
    · rw [if_pos h2]
      exact ⟨fun h => absurd h (by decide), fun h => absurd h h1⟩
    · rw [if_neg h2]
      exact ⟨fun h => absurd h (by decide), fun h => absurd h h1⟩

/-- C5: status classification from the percentage: `Defisit` iff defined
and below 90, `Memadai` iff defined and between 90 and 120 inclusive,
`Surplus` iff defined and above 120, `NA` iff undefined; boundary 90
(e.g. intake 1800 against target 2000) is `Memadai`; `NA` rows appear in
no narrative bucket. -/
theorem status_classification (p : Option ℚ) :
    (def_status p = "Defisit" ↔ ∃ q, p = some q ∧ q < 90) ∧
    (def_status p = "Memadai" ↔ ∃ q, p = some q ∧ 90 ≤ q ∧ q ≤ 120) ∧
    (def_status p = "Surplus" ↔ ∃ q, p = some q ∧ 120 < q) ∧
    (def_status p = "NA" ↔ p = none) ∧
    def_status (some ((1800 : ℚ) / 2000 * 100)) = "Memadai" ∧
    def_status (some (120 : ℚ)) = "Memadai" ∧
    (∀ rows : List GapRow, ∀ g ∈ rows, statusOf g = "NA" →
      ∀ s, s = "Defisit" ∨ s = "Memadai" ∨ s = "Surplus" → g ∉ pick rows s) := by
  have hM : ∀ q : ℚ, ¬ q < 90 → q ≤ 120 → def_status (some q) = "Memadai" := by
    intro q h1 h2
    show (if q < 90 then "Defisit" else if q ≤ 120 then "Memadai" else "Surplus") = "Memadai"
    rw [if_neg h1, if_pos h2]
  have hS : ∀ q : ℚ, ¬ q < 90 → ¬ q ≤ 120 → def_status (some q) = "Surplus" := by
    intro q h1 h2
    show (if q < 90 then "Defisit" else if q ≤ 120 then "Memadai" else "Surplus") = "Surplus"
    rw [if_neg h1, if_neg h2]
  have hsc : def_status (some ((1800 : ℚ) / 2000 * 100)) = "Memadai" := by
    have he : ((1800 : ℚ) / 2000 * 100) = 90 := by norm_num
    rw [he]
    exact hM 90 (by norm_num) (by norm_num)
  have hbk : ∀ rows : List GapRow, ∀ g ∈ rows, statusOf g = "NA" →
      ∀ s, s = "Defisit" ∨ s = "Memadai" ∨ s = "Surplus" → g ∉ pick rows s := by
    intro rows g _ hna s hs hmem
    have h1 : g ∈ (sortPreferred rows).filter (fun g => statusOf g == s) :=
      (List.Perm.mem_iff (List.perm_insertionSort devDescLe _)).mp hmem
    have h2 : (statusOf g == s) = true := (List.mem_filter.mp h1).2
    have h3 : statusOf g = s := by simpa using h2
    rw [hna] at h3
    rcases hs with rfl | rfl | rfl <;> exact absurd h3 (by decide)
  refine ⟨?_, ?_, ?_, ?_, hsc, hM 120 (by norm_num) (by norm_num), hbk⟩
  · cases p with
    | none =>
      constructor
      · intro h; exact absurd h (by decide)
      · rintro ⟨q, hq, _⟩; exact Option.noConfusion hq
    | some q =>
      constructor
      · intro h
        refine ⟨q, rfl, ?_⟩
        by_contra h1
        by_cases h2 : q ≤ 120
        · rw [hM q h1 h2] at h; exact absurd h (by decide)
        · rw [hS q h1 h2] at h; exact absurd h (by decide)
      · rintro ⟨q', hq', hlt⟩
        injection hq' with hq2
        subst hq2
        exact (def_status_deficit_iff q).mpr hlt
  · cases p with
    | none =>
      constructor
      · intro h; exact absurd h (by decide)
      · rintro ⟨q, hq, _⟩; exact Option.noConfusion hq
    | some q =>
      constructor
      · intro h
        refine ⟨q, rfl, ?_, ?_⟩
        · by_contra h1
          have hd := (def_status_deficit_iff q).mpr (lt_of_not_le h1)
          rw [hd] at h; exact absurd h (by decide)
        · by_contra h2
          have h1 : ¬ q < 90 := by
            intro h90
            have hd := (def_status_deficit_iff q).mpr h90
            rw [hd] at h; exact absurd h (by decide)
          rw [hS q h1 h2] at h; exact absurd h (by decide)
      · rintro ⟨q', hq', h90, h120⟩
        injection hq' with hq2
        subst hq2
        exact hM q (not_lt_of_le h90) h120
  · cases p with
    | none =>
      constructor
      · intro h; exact absurd h (by decide)
      · rintro ⟨q, hq, _⟩; exact Option.noConfusion hq
    | some q =>
      constructor
      · intro h
        refine ⟨q, rfl, ?_⟩
        by_contra h2
        have h120 : q ≤ 120 := le_of_not_lt h2
        by_cases h1 : q < 90
        · rw [(def_status_deficit_iff q).mpr h1] at h; exact absurd h (by decide)
        · rw [hM q h1 h120] at h; exact absurd h (by decide)
      · rintro ⟨q', hq', hgt⟩
        injection hq' with hq2
        subst hq2
        exact hS q (by linarith) (by linarith)
  · cases p with
    | none => exact ⟨fun _ => rfl, fun _ => rfl⟩
    | some q =>
      constructor
      · intro h
        by_cases h1 : q < 90
        · rw [(def_status_deficit_iff q).mpr h1] at h; exact absurd h (by decide)
        · by_cases h2 : q ≤ 120
          · rw [hM q h1 h2] at h; exact absurd h (by decide)
          · rw [hS q h1 h2] at h; exact absurd h (by decide)
      · intro h; exact Option.noConfusion h

/-- C5 witness: 50% is `Defisit`, an undefined percentage is `NA`, and
the boundary 90% (Scenario C, 1800 against 2000) is `Memadai`. -/
theorem status_classification_witness :
    def_status (some (50 : ℚ)) = "Defisit" ∧
    def_status none = "NA" ∧
    def_status (some ((1800 : ℚ) / 2000 * 100)) = "Memadai" := by
  refine ⟨?_, ?_, (status_classification (some ((1800 : ℚ) / 2000 * 100))).2.2.2.2.1⟩
  · exact (status_classification (some 50)).1.mpr ⟨50, rfl, by norm_num⟩
  · exact (status_classification none).2.2.2.1.mpr rfl

set_option maxHeartbeats 2000000 in
/-- Every numeric target of a default AKG reference row is positive. -/
theorem akg_target_pos (r : AkgRow) (hr : r ∈ akgGroups) (c : String) (t : ℚ)
    (h : r.val c = some t) : 0 < t := by
  simp only [akgGroups, List.mem_cons, List.not_mem_nil, or_false] at hr
  rcases hr with rfl | rfl | rfl | rfl | rfl | rfl | rfl
  all_goals simp only [AkgRow.val] at h
  all_goals split_ifs at h <;> (injection h with h2; rw [← h2]; norm_num)

/-- C7: for every gap row produced from an intake dict and one of the
reference groups, whenever its target and intake values are defined the
gap equals `actual - target` (signed) and the status is `Defisit` exactly
when `actual/target*100 < 90`. -/
theorem gap_sign_and_deficit (asupan : List (String × ℚ)) (r : AkgRow) (hr : r ∈ akgGroups)
    (g : GapRow) (hg : g ∈ compute_gap_series asupan r) (t v : ℚ)
    (ht : g.target = some t) (hv : g.asupan = some v) :
    g.gap = some (v - t) ∧ g.pencapaian = some (v / t * 100) ∧
    (def_status g.pencapaian = "Defisit" ↔ v / t * 100 < 90) := by
  obtain ⟨k, hk, rfl⟩ := List.mem_map.mp hg
  cases hval : r.val k with
  | none =>
    have htg : (gapRowFor asupan r k).target = none := by
      unfold gapRowFor
      rw [hval]
    rw [htg] at ht
    exact Option.noConfusion ht
  | some t' =>
    have hpos := akg_target_pos r hr k t' hval
    have hne0 : ¬ t' = 0 := ne_of_gt hpos
    cases hvo : (asupan.find? (fun p => p.1 == k)).map (fun p => p.2) with
    | none =>
      have hA : (gapRowFor asupan r k).asupan = none := by
        unfold gapRowFor
        rw [hval, hvo]
      rw [hA] at hv
      exact Option.noConfusion hv
    | some v' =>
      have hrow : gapRowFor asupan r k =
          ⟨k, some t', some v', some (v' / t' * 100), some (v' - t')⟩ := by
        unfold gapRowFor
        rw [hval, hvo]
        show (if t' = 0 then (⟨k, some t', some v', none, none⟩ : GapRow)
          else ⟨k, some t', some v', some (v' / t' * 100), some (v' - t')⟩) =
          ⟨k, some t', some v', some (v' / t' * 100), some (v' - t')⟩
        rw [if_neg hne0]
      rw [hrow] at ht hv ⊢
      have ht2 : some t' = some t := ht
      have hv2 : some v' = some v := hv
      injection ht2 with ht3
      injection hv2 with hv3
      subst ht3
      subst hv3
      exact ⟨rfl, rfl, def_status_deficit_iff _⟩

/-- C7 witness: intake energy 1800 against the first AKG group (target
1650) gives gap 150 and a non-deficit status. -/
theorem gap_sign_and_deficit_witness :
    c7Row.gap = some ((1800 : ℚ) - 1650) ∧
    c7Row.pencapaian = some ((1800 : ℚ) / 1650 * 100) ∧
    (def_status c7Row.pencapaian = "Defisit" ↔ (1800 : ℚ) / 1650 * 100 < 90) ∧
    c7Row.gap = some (150 : ℚ) := by
  have hmem : c7Row ∈ compute_gap_series c7In c7Akg := by
    have he : compute_gap_series c7In c7Akg = [c7Row] := rfl
    rw [he]
    exact List.mem_singleton.mpr rfl
  have h := gap_sign_and_deficit c7In c7Akg (List.mem_cons_self _ _) c7Row hmem 1650 1800
    rfl rfl
  refine ⟨h.1, h.2.1, h.2.2, ?_⟩
  rw [h.1]
  norm_num

/-- Unfolding a per-menu total over one more corrected row. -/
theorem menuTotal_cons (r : CorrectedRow) (rest : List CorrectedRow) (m k : String) :
    menuTotal (r :: rest) m k =
      (if r.namaMenu = m then (nutrientVal r k).getD 0 else 0) + menuTotal rest m k := by
  unfold menuTotal
  by_cases h : r.namaMenu = m
  · rw [List.filter_cons_of_pos (by simpa using h)]
    cases hv : nutrientVal r k with
    | none => simp [List.filterMap_cons, hv, h]
    | some v => simp [List.filterMap_cons, hv, h]
  · rw [List.filter_cons_of_neg (by simpa using h)]
    simp [h]

/-- Unfolding a direct subset sum over one more corrected row. -/
theorem directSum_cons (r : CorrectedRow) (rest : List CorrectedRow) (S : List String)
    (k : String) :
    directSum (r :: rest) S k =
      (if r.namaMenu ∈ S then (nutrientVal r k).getD 0 else 0) + directSum rest S k := by
  unfold directSum
  by_cases h : r.namaMenu ∈ S
  · rw [List.filter_cons_of_pos (by simpa using h)]
    cases hv : nutrientVal r k with
    | none => simp [List.filterMap_cons, hv, h]
    | some v => simp [List.filterMap_cons, hv, h]
  · rw [List.filter_cons_of_neg (by simpa using h)]
    simp [h]

/-- A direct sum over no menus is 0. -/
theorem directSum_nil_menus (rows : List CorrectedRow) (k : String) :
    directSum rows [] k = 0 := by
  induction rows with
  | nil => rfl
  | cons r rest ih => rw [directSum_cons]; simp [ih]

/-- Splitting a direct sum over `m :: S` into the total of `m` plus the
direct sum over `S`, for `m ∉ S`. -/
theorem directSum_split (rows : List CorrectedRow) (m : String) (S : List String)
    (hm : m ∉ S) (k : String) :
    directSum rows (m :: S) k = menuTotal rows m k + directSum rows S k := by
  induction rows with
  | nil => simp [directSum, menuTotal]
  | cons r rest ih =>
    rw [directSum_cons, directSum_cons, menuTotal_cons, ih]
    by_cases h1 : r.namaMenu = m
    · rw [if_pos (by simp [h1]), if_pos h1, if_neg (by rw [h1]; exact hm)]
      ring
    · by_cases h2 : r.namaMenu ∈ S
      · rw [if_pos (by simp [h2]), if_neg h1, if_pos h2]
        ring
      · rw [if_neg (by simp [h1, h2]), if_neg h1, if_neg h2]
        ring

/-- C6: per-menu aggregation sums the numeric nutrient values per menu,
treating NaN entries as absent; summing the per-menu totals over any
duplicate-free subset of menus equals summing the per-ingredient corrected
rows of those menus directly. -/
theorem menu_aggregation_partition (rows : List CorrectedRow) (S : List String) (k : String)
    (hS : S.Nodup) :
    (S.map (fun m => menuTotal rows m k)).sum = directSum rows S k := by
  induction S with
  | nil => simp [directSum_nil_menus]
  | cons m S' ih =>
    have hnd := List.nodup_cons.mp hS
    rw [List.map_cons, List.sum_cons, ih hnd.2, directSum_split rows m S' hnd.1 k]

/-- C6 witness (Scenario B): two entries in menu `A` with corrected energy
150 and 220 aggregate to 370, and the subset sum over `["A"]` matches the
direct row sum. -/
theorem menu_aggregation_partition_witness :
    (["A"].map (fun m => menuTotal c6Rows m "ENERGI")).sum = directSum c6Rows ["A"] "ENERGI" ∧
    menuTotal c6Rows "A" "ENERGI" = 370 := by
  refine ⟨menu_aggregation_partition c6Rows ["A"] "ENERGI" (by decide), ?_⟩
  show ([(150 : ℚ), 220]).sum = 370
  simp only [List.sum_cons, List.sum_nil]
  norm_num

/-- C3 (code-bug evidence): with a per-menu table that has an `Energi`
column (so at least one reference key matches, `filled_any` is set) and no
`Omega3` column, the derived intake leaves `Omega3` at the manual-entry
default 1.2 instead of the zero the fill loop's comment and the spec call
for — the fill condition (`k not in asupan` / NaN value) is never true
because the dict is pre-seeded with non-NaN defaults. -/
theorem zero_fill_dead_code :
    dictGet (deriveAsupan c3Cols) "Omega3" = some 1.2 ∧
    dictGet (deriveAsupan c3Cols) "Energi" = some (([some (100 : ℚ)].filterMap id).sum) ∧
    ([some (100 : ℚ)].filterMap id).sum = 100 ∧
    (1.2 : ℚ) ≠ 0 := by
  refine ⟨rfl, rfl, ?_, by norm_num⟩
  simp only [List.filterMap, List.sum_cons, List.sum_nil]
  norm_num

/-- Writing a key makes it readable with the written value. -/
theorem dictGet_dictSet_self (l : List (String × ℚ)) (k : String) (v : ℚ) :
    dictGet (dictSet l k v) k = some v := by
  induction l with
  | nil => simp [dictGet, dictSet, List.find?_cons]
  | cons p t ih =>
    by_cases hp : p.1 = k
    · have hb : (p.1 == k) = true := by simpa using hp
      unfold dictSet
      rw [if_pos hb]
      simp [dictGet, List.find?_cons, hb]
    · have hb : (p.1 == k) = false := by simpa using hp
      unfold dictSet
      rw [if_neg (by simp [hb])]
      unfold dictGet at ih ⊢
      simp only [List.find?_cons, hb]
      exact ih

/-- Writing a key leaves every other key unchanged. -/
theorem dictGet_dictSet_ne (l : List (String × ℚ)) (k k' : String) (v : ℚ)
    (h : ¬ k' = k) :
    dictGet (dictSet l k v) k' = dictGet l k' := by
  induction l with
  | nil =>
    have hb : (k == k') = false := by simpa using fun hh => h hh.symm
    simp [dictGet, dictSet, List.find?_cons, hb]
  | cons p t ih =>
    by_cases hp : p.1 = k
    · have hb : (p.1 == k) = true := by simpa using hp
      have hb' : (p.1 == k') = false := by
        simp only [beq_eq_false_iff_ne, ne_eq]
        rw [hp]
        exact fun hh => h hh.symm
      unfold dictSet
      rw [if_pos hb]
      simp [dictGet, List.find?_cons, hb']
    · have hb : (p.1 == k) = false := by simpa using hp
      unfold dictSet
      rw [if_neg (by simp [hb])]
      unfold dictGet at ih ⊢
      cases hpk : (p.1 == k') with
      | true => simp [List.find?_cons, hpk]
      | false => simp only [List.find?_cons, hpk]; exact ih

/-- A readable key is present (its `any` test succeeds). -/
theorem any_of_dictGet_some (a : List (String × ℚ)) (k : String) (s : ℚ)
    (h : dictGet a k = some s) : a.any (fun p => p.1 == k) = true := by
  unfold dictGet at h
  cases hf : a.find? (fun p => p.1 == k) with
  | none => rw [hf] at h; exact Option.noConfusion h
  | some p0 =>
    have hp := List.find?_some hf
    exact List.any_eq_true.mpr ⟨p0, List.mem_of_find?_eq_some hf, hp⟩

/-- The fill loop leaves keys outside the iterated list unchanged. -/
theorem deriveFold_preserve (cols : List (String × List (Option ℚ))) (ks : List String)
    (acc : List (String × ℚ) × Bool) (k : String) (hk : k ∉ ks) :
    dictGet (ks.foldl (deriveStep cols) acc).1 k = dictGet acc.1 k := by
  induction ks generalizing acc with
  | nil => rfl
  | cons k0 t ih =>
    have hk0 : ¬ k = k0 := fun h => hk (h ▸ List.mem_cons_self k0 t)
    have hkt : k ∉ t := fun h => hk (List.mem_cons_of_mem k0 h)
    rw [List.foldl_cons, ih _ hkt]
    unfold deriveStep
    cases sum_by_alias cols (aliases k0) with
    | none => rfl
    | some tot => exact dictGet_dictSet_ne _ _ _ _ hk0

/-- After the fill loop, a key whose alias sum is defined holds that sum. -/
theorem deriveFold_get (cols : List (String × List (Option ℚ))) (ks : List String)
    (hnd : ks.Nodup) (acc : List (String × ℚ) × Bool) (k : String) (hk : k ∈ ks)
    (s : ℚ) (hs : sum_by_alias cols (aliases k) = some s) :
    dictGet (ks.foldl (deriveStep cols) acc).1 k = some s := by
  induction ks generalizing acc with
  | nil => exact absurd hk (List.not_mem_nil k)
  | cons k0 t ih =>
    have hnd' := List.nodup_cons.mp hnd
    rcases List.mem_cons.mp hk with rfl | hkt
    · rw [List.foldl_cons, deriveFold_preserve cols t _ k hnd'.1]
      unfold deriveStep
      rw [hs]
      exact dictGet_dictSet_self _ _ _
    · rw [List.foldl_cons]
      exact ih hnd'.2 _ hkt

/-- The zero-fill loop never changes a key that already has a value. -/
theorem zeroFill_preserve (ks : List String) (a : List (String × ℚ)) (k : String) (s : ℚ)
    (h : dictGet a k = some s) :
    dictGet (ks.foldl zeroFillStep a) k = some s := by
  induction ks generalizing a with
  | nil => exact h
  | cons k0 t ih =>
    rw [List.foldl_cons]
    apply ih
    unfold zeroFillStep
    by_cases hany : a.any (fun p => p.1 == k0) = true
    · rw [if_pos hany]; exact h
    · rw [if_neg hany]
      have hne : ¬ k = k0 := by
        rintro rfl
        exact hany (any_of_dictGet_some a k s h)
      rw [dictGet_dictSet_ne _ _ _ _ hne]
      exact h

/-- A reference key whose alias sum is defined ends up with that sum in
the derived intake. -/
theorem derive_get (cols : List (String × List (Option ℚ))) (k : String)
    (hk : k ∈ AKG_COLS) (s : ℚ) (hs : sum_by_alias cols (aliases k) = some s) :
    dictGet (deriveAsupan cols) k = some s := by
  unfold deriveAsupan
  have h1 := deriveFold_get cols AKG_COLS (by decide) (asupanDefault, false) k hk s hs
  by_cases h2 : (AKG_COLS.foldl (deriveStep cols) (asupanDefault, false)).2 = true
  · rw [if_pos h2]
    exact zeroFill_preserve _ _ _ _ h1
  · rw [if_neg h2]
    exact h1

/-- `sum_by_alias` on one more alias, when the alias matches no column. -/
theorem sum_by_alias_cons_none (cols : List (String × List (Option ℚ))) (a : String)
    (rest : List String) (h : lower_map_get cols a = none) :
    sum_by_alias cols (a :: rest) = sum_by_alias cols rest := by
  show (match lower_map_get cols a with
    | some c => if c.1 = "" then sum_by_alias cols rest else some ((c.2.filterMap id).sum)
    | none => sum_by_alias cols rest) = sum_by_alias cols rest
  rw [h]

/-- `sum_by_alias` on one more alias, when the alias matches a column with
a nonempty name. -/
theorem sum_by_alias_cons_some (cols : List (String × List (Option ℚ))) (a : String)
    (rest : List String) (c : String × List (Option ℚ)) (h : lower_map_get cols a = some c)
    (hne : ¬ c.1 = "") :
    sum_by_alias cols (a :: rest) = some ((c.2.filterMap id).sum) := by
  show (match lower_map_get cols a with
    | some c => if c.1 = "" then sum_by_alias cols rest else some ((c.2.filterMap id).sum)
    | none => sum_by_alias cols rest) = some ((c.2.filterMap id).sum)
  rw [h]
  show (if c.1 = "" then sum_by_alias cols rest else some ((c.2.filterMap id).sum)) =
    some ((c.2.filterMap id).sum)
  rw [if_neg hne]

/-- A matched column of `lower_map_get` belongs to the table and matches
case-insensitively. -/
theorem lower_map_get_some (cols : List (String × List (Option ℚ))) (a : String)
    (c : String × List (Option ℚ)) (h : lower_map_get cols a = some c) :
    c ∈ cols ∧ lowerS c.1 = lowerS a := by
  unfold lower_map_get at h
  exact ⟨List.mem_reverse.mp (List.mem_of_find?_eq_some h), by simpa using List.find?_some h⟩

/-- An unmatched alias of `lower_map_get` matches no column. -/
theorem lower_map_get_none (cols : List (String × List (Option ℚ))) (a : String)
    (h : lower_map_get cols a = none) : ∀ c ∈ cols, lowerS c.1 ≠ lowerS a := by
  intro c hc heq
  have := List.find?_eq_none.mp (by unfold lower_map_get at h; exact h) c
    (List.mem_reverse.mpr hc)
  exact this (by simpa using heq)

/-- C10: `sum_by_alias` is NaN exactly when no alias names a column
case-insensitively; a match returns the matched column's coerced,
NaN-skipping sum (0 when the column holds no numeric value at all); and a
defined sum — including 0 from an all-NaN column — ends up as that
reference key's intake, counting as a successful match, instead of the
key staying undefined or at its manual default. -/
theorem sum_by_alias_spec (cols : List (String × List (Option ℚ))) (al : List String)
    (hal : ∀ a ∈ al, ¬ lowerS a = "") :
    (sum_by_alias cols al = none ↔ ∀ a ∈ al, ∀ c ∈ cols, lowerS c.1 ≠ lowerS a) ∧
    (∀ s, sum_by_alias cols al = some s →
      ∃ a ∈ al, ∃ c ∈ cols, lowerS c.1 = lowerS a ∧ s = (c.2.filterMap id).sum) ∧
    (∀ s, sum_by_alias cols al = some s → (∀ c ∈ cols, ∀ x ∈ c.2, x = none) → s = 0) ∧
    (∀ k ∈ AKG_COLS, ∀ s, sum_by_alias cols (aliases k) = some s →
      dictGet (deriveAsupan cols) k = some s) := by
  have main : (sum_by_alias cols al = none ↔ ∀ a ∈ al, ∀ c ∈ cols, lowerS c.1 ≠ lowerS a) ∧
      (∀ s, sum_by_alias cols al = some s →
        ∃ a ∈ al, ∃ c ∈ cols, lowerS c.1 = lowerS a ∧ s = (c.2.filterMap id).sum) := by
    induction al with
    | nil =>
      refine ⟨by simp [sum_by_alias], ?_⟩
      intro s h
      exact Option.noConfusion h
    | cons a rest ih =>
      have hal' : ∀ x ∈ rest, ¬ lowerS x = "" := fun x hx => hal x (List.mem_cons_of_mem a hx)
      have ih' := ih hal'
      cases hlm : lower_map_get cols a with
      | none =>
        have hno := lower_map_get_none cols a hlm
        rw [sum_by_alias_cons_none cols a rest hlm]
        constructor
        · rw [ih'.1]
          constructor
          · intro h x hx c hc
            rcases List.mem_cons.mp hx with rfl | hx'
            · exact hno c hc
            · exact h x hx' c hc
          · intro h x hx c hc
            exact h x (List.mem_cons_of_mem a hx) c hc
        · intro s hs
          obtain ⟨a', ha', c', hc', heq, hsum⟩ := ih'.2 s hs
          exact ⟨a', List.mem_cons_of_mem a ha', c', hc', heq, hsum⟩
      | some c =>
        obtain ⟨hcmem, hceq⟩ := lower_map_get_some cols a c hlm
        have hcne : ¬ c.1 = "" := by
          intro h0
          apply hal a (List.mem_cons_self a rest)
          rw [← hceq, h0]
          rfl
        rw [sum_by_alias_cons_some cols a rest c hlm hcne]
        constructor
        · refine iff_of_false (by simp) ?_
          intro h
          exact h a (List.mem_cons_self a rest) c hcmem hceq
        · intro s hs
          injection hs with hs2
          exact ⟨a, List.mem_cons_self a rest, c, hcmem, hceq, hs2.symm⟩
  refine ⟨main.1, main.2, ?_, fun k hk s hs => derive_get cols k hk s hs⟩
  intro s hs hall
  obtain ⟨a', _, c', hc', _, hsum⟩ := main.2 s hs
  have hnil : c'.2.filterMap id = [] := by
    rw [List.filterMap_eq_nil_iff]
    intro x hx
    rw [hall c' hc' x hx]
    rfl
  rw [hsum, hnil, List.sum_nil]

/-- C10 witness: a `Serat` column holding only a non-numeric cell is a
successful match with sum 0, and the derived intake sets `Serat` to 0
(not the manual default 28 and not NaN). -/
theorem sum_by_alias_spec_witness :
    sum_by_alias c10Cols (aliases "Serat") = some 0 ∧
    dictGet (deriveAsupan c10Cols) "Serat" = some 0 := by
  have h0 : sum_by_alias c10Cols (aliases "Serat") = some (([] : List ℚ).sum) := rfl
  have h1 : sum_by_alias c10Cols (aliases "Serat") = some 0 := by
    rw [h0, List.sum_nil]
  refine ⟨h1, ?_⟩
  exact (sum_by_alias_spec c10Cols (aliases "Serat") (by decide)).2.2.2 "Serat"
    (by decide) 0 h1

/-- C9: each narrative bucket mentions at most 5 nutrients, ordered by
descending absolute deviation of the percentage from 100%; every bucket
row comes from the gap table with the bucket's status, and every gap row
of that status is in the picked bucket (rows beyond the first 5 are only
dropped from the narrative text, not from the gap table). -/
theorem narrative_bucket_spec (rows : List GapRow) (s : String) :
    (bucketMentions rows s).length ≤ 5 ∧
    List.Pairwise devDescLe (bucketMentions rows s) ∧
    (∀ g ∈ bucketMentions rows s, g ∈ rows ∧ statusOf g = s) ∧
    (∀ g ∈ rows, statusOf g = s → g ∈ pick rows s) := by
  refine ⟨List.length_take_le 5 _, ?_, ?_, ?_⟩
  · have hs : List.Sorted devDescLe
        (sortByDevDesc ((sortPreferred rows).filter (fun g => statusOf g == s))) := by
      haveI : IsTotal GapRow devDescLe := ⟨fun a b => le_total (dev b) (dev a)⟩
      haveI : IsTrans GapRow devDescLe := ⟨fun a b c h1 h2 => le_trans h2 h1⟩
      exact List.sorted_insertionSort devDescLe _
    exact List.Pairwise.sublist (List.take_sublist 5 _) hs
  · intro g hg
    have h1 : g ∈ pick rows s := List.mem_of_mem_take hg
    have h2 : g ∈ (sortPreferred rows).filter (fun g => statusOf g == s) :=
      (List.Perm.mem_iff (List.perm_insertionSort devDescLe _)).mp h1
    have h3 := List.mem_filter.mp h2
    have h4 : g ∈ rows := (List.Perm.mem_iff (List.perm_insertionSort prefLe _)).mp h3.1
    exact ⟨h4, by simpa using h3.2⟩
  · intro g hg hst
    have h1 : g ∈ sortPreferred rows :=
      (List.Perm.mem_iff (List.perm_insertionSort prefLe _)).mpr hg
    have h2 : g ∈ (sortPreferred rows).filter (fun g => statusOf g == s) :=
      List.mem_filter.mpr ⟨h1, by simpa using hst⟩
    exact (List.Perm.mem_iff (List.perm_insertionSort devDescLe _)).mpr h2

/-- C9 witness (Scenario D): fiber 20 against target 28 (≈71.4%) is a
deficit row; the bucket mentions at most 5 items and the row is in the
picked `Defisit` bucket. -/
theorem narrative_bucket_spec_witness :
    (bucketMentions c9Rows "Defisit").length ≤ 5 ∧ c9Gap ∈ pick c9Rows "Defisit" := by
  have h := narrative_bucket_spec c9Rows "Defisit"
  refine ⟨h.1, h.2.2.2 c9Gap (List.mem_singleton.mpr rfl) ?_⟩
  show def_status (some ((500 : ℚ) / 7)) = "Defisit"
  exact (def_status_deficit_iff _).mpr (by norm_num)

end FCT
